import Mathlib

/-!
Verification of the soccer-video-analytics core against its design spec.

The Python sources are shallowly embedded: float arithmetic is modelled by
exact rationals (`ℚ`), Python `int()` truncation and `round`/`np.round`
(half-to-even) are modelled explicitly, raised exceptions become
`Except String`, and `None`-able values become `Option`.
-/

namespace Soccer

/-- RGB color triple, as used for team and ball colors. -/
abbrev RGB := ℕ × ℕ × ℕ

/-- Python `int(q)` on a float: truncation toward zero. -/
def pyInt (q : ℚ) : ℤ :=
  if 0 ≤ q then ⌊q⌋ else ⌈q⌉

/-- Python `round(q)` / `np.round(q)`: round to nearest, ties to even. -/
def roundHalfEven (q : ℚ) : ℤ :=
  if Int.fract q < 1/2 then ⌊q⌋
  else if 1/2 < Int.fract q then ⌊q⌋ + 1
  else if Even ⌊q⌋ then ⌊q⌋ else ⌊q⌋ + 1

/-- `src/inference/types.py`: class `Box`, a bounding box in an image. -/
structure Box where
  x : ℚ
  y : ℚ
  width : ℚ
  height : ℚ
deriving DecidableEq, Repr

/-- `Box.area`: `return self.width * self.height`. -/
def Box.area (b : Box) : ℚ :=
  b.width * b.height

/-- `Box.points`: `[(int(x), int(y)), (int(x + width), int(y + height))]`. -/
def Box.points (b : Box) : List (ℤ × ℤ) :=
  [ (pyInt b.x, pyInt b.y),
    (pyInt (b.x + b.width), pyInt (b.y + b.height)) ]

/-- `Box.iou`: intersection over union with another box. -/
def Box.iou (a b : Box) : ℚ :=
  let x1 := max a.x b.x
  let y1 := max a.y b.y
  let x2 := min (a.x + a.width) (b.x + b.width)
  let y2 := min (a.y + a.height) (b.y + b.height)
  if x2 ≤ x1 ∨ y2 ≤ y1 then 0
  else
    let intersection := (x2 - x1) * (y2 - y1)
    let union := a.area + b.area - intersection
    if 0 < union then intersection / union else 0

/-- A `norfair.Detection` as consumed by this code base: a frame-local corner
pair `points`, a motion-compensated corner pair `absolute_points`, and the
`data["classification"]` slot written by the classifiers. -/
structure Detection where
  points : (ℚ × ℚ) × (ℚ × ℚ)
  absolute_points : (ℚ × ℚ) × (ℚ × ℚ)
  classification : Option String
deriving DecidableEq, Repr

/-- `src/soccer/ball.py`: state of a `Ball` object after `__init__`. -/
structure Ball where
  detection : Option Detection
  box : Option Box
  color : Option RGB
deriving DecidableEq, Repr

/-- `Ball.__init__`: keeps the detection (dropping any box) when one is given,
else keeps the box, else raises `ValueError`. -/
def Ball.init (detection : Option Detection) (box : Option Box) :
    Except String Ball :=
  match detection with
  | some d => .ok ⟨some d, none, none⟩
  | none =>
    match box with
    | some b => .ok ⟨none, some b, none⟩
    | none => .error "Either detection or box must be provided"

/-- `Ball.position`: top-left of the box if present, else first detection
point, else `(0, 0)`. -/
def Ball.position (b : Ball) : ℚ × ℚ :=
  match b.box with
  | some box => (box.x, box.y)
  | none =>
    match b.detection with
    | some d => (d.points.1.1, d.points.1.2)
    | none => (0, 0)

/-- `Ball.get_center`: midpoint of a corner pair. -/
def Ball.get_center (points : (ℚ × ℚ) × (ℚ × ℚ)) : ℚ × ℚ :=
  ((points.1.1 + points.2.1) / 2, (points.1.2 + points.2.2) / 2)

/-- `Ball.center`: `np.round` of the midpoint of `detection.points`, or
`None` when there is no detection. -/
def Ball.center (b : Ball) : Option (ℤ × ℤ) :=
  b.detection.map fun d =>
    let c := Ball.get_center d.points
    (roundHalfEven c.1, roundHalfEven c.2)

/-- `Ball.center_abs`: like `center` but on `detection.absolute_points`. -/
def Ball.center_abs (b : Ball) : Option (ℤ × ℤ) :=
  b.detection.map fun d =>
    let c := Ball.get_center d.absolute_points
    (roundHalfEven c.1, roundHalfEven c.2)

/-- `src/soccer/player.py`: a `Player` wraps one tracked detection. -/
structure Player where
  detection : Detection
deriving DecidableEq, Repr

/-- `Player.left_foot`: `(points[0][0], points[1][1])`. -/
def Player.left_foot (p : Player) : ℚ × ℚ :=
  (p.detection.points.1.1, p.detection.points.2.2)

/-- `Player.right_foot`: `points[1]`. -/
def Player.right_foot (p : Player) : ℚ × ℚ :=
  p.detection.points.2

/-- Euclidean norm of the difference of two planar points, as computed by
`np.linalg.norm`. -/
noncomputable def planeDist (a b : ℚ × ℚ) : ℝ :=
  Real.sqrt ((((a.1 : ℝ) - b.1)) ^ 2 + (((a.2 : ℝ) - b.2)) ^ 2)

/-- `Player.distance_to_ball`: `None` when the ball center is unresolvable,
else the smaller of the distances from the (rounded) ball center to the two
feet. -/
noncomputable def Player.distance_to_ball (p : Player) (ball : Ball) :
    Option ℝ :=
  (Ball.center ball).map fun c =>
    min (planeDist ((c.1 : ℚ), (c.2 : ℚ)) p.left_foot)
        (planeDist ((c.1 : ℚ), (c.2 : ℚ)) p.right_foot)

/-- Python `str.lower()` (ASCII), applied characterwise. -/
def pyLower (s : String) : String :=
  ⟨s.data.map Char.toLower⟩

/-- Python `str.isupper()` (ASCII): at least one cased character and every
cased character uppercase. -/
def pyIsUpper (s : String) : Bool :=
  s.data.any (fun c => c.isAlpha) && s.data.all (fun c => !c.isAlpha || c.isUpper)

/-- `src/soccer/team.py`: state of a `Team` object after `__init__`. -/
structure Team where
  name : String
  id : Option ℕ
  color : RGB
  abbreviation : String
  board_color : RGB
  text_color : RGB
  possession : ℕ
deriving DecidableEq, Repr

/-- `Team.__init__`: populates the fields (`board_color` defaulting to
`color`, possession counter 0) and raises `ValueError` unless the
abbreviation has length 3 and `isupper()`. -/
def Team.init (name : String) (id : Option ℕ) (color : RGB)
    (abbreviation : String) (board_color : Option RGB) (text_color : RGB) :
    Except String Team :=
  if abbreviation.length ≠ 3 ∨ ¬pyIsUpper abbreviation then
    .error "abbreviation must be length 3 and uppercase"
  else
    .ok ⟨name, id, color, abbreviation, board_color.getD color, text_color, 0⟩

/-- `Team.get_percentage_possession`: 0 for zero duration, else
`round(possession / duration, 2)`. -/
def Team.get_percentage_possession (t : Team) (duration : ℤ) : ℚ :=
  if duration = 0 then 0
  else (roundHalfEven ((t.possession : ℚ) / (duration : ℚ) * 100) : ℚ) / 100

/-- An element of a Python list that is supposed to hold
`norfair.Detection` values: either an actual detection or some other
object (which the type check must reject). -/
inductive PyObj where
  | det : Detection → PyObj
  | nonDet : PyObj
deriving DecidableEq

/-- `src/inference/base_classifier.py`, crop construction inside
`predict_from_detections`: `x = min(x1,x2)`, `y = min(y1,y2)`,
`width = abs(x2-x1)`, `height = abs(y2-y1)`. The pixel contents of the
crop are abstracted to this geometric description of the cut region. -/
def cropBox (d : Detection) : Box :=
  let x1 := d.points.1.1
  let y1 := d.points.1.2
  let x2 := d.points.2.1
  let y2 := d.points.2.2
  ⟨min x1 x2, min y1 y2, |x2 - x1|, |y2 - y1|⟩

/-- The `all(isinstance(detection, Detection) ...)` guard: succeeds with the
list of detections exactly when every element is a `Detection`. -/
def extractDetections : List PyObj → Option (List Detection)
  | [] => some []
  | .det d :: rest => (extractDetections rest).map (d :: ·)
  | .nonDet :: _ => none

/-- The `for detection, name in zip(detections, class_name)` loop: writes the
i-th label into the i-th detection's `data["classification"]`; detections
beyond the label list are returned unchanged. -/
def attachLabels : List Detection → List String → List Detection
  | d :: ds, l :: ls => { d with classification := some l } :: attachLabels ds ls
  | ds, [] => ds
  | [], _ :: _ => []

/-- `BaseClassifier.predict_from_detections`, with the wrapped `predict`
call abstracted as a function from the list of crops to the label list. -/
def BaseClassifier.predict_from_detections
    (predict : List Box → List String) (detections : List PyObj) :
    Except String (List Detection) :=
  match extractDetections detections with
  | none => .error "detections must be a list of norfair.Detection"
  | some ds => .ok (attachLabels ds (predict (ds.map cropBox)))

/-- `src/inference/colors.py`: a named HSV range. -/
structure HSVColor where
  name : String
  lower_hsv : ℕ × ℕ × ℕ
  upper_hsv : ℕ × ℕ × ℕ
deriving DecidableEq, Repr

namespace Colors

def white : HSVColor := ⟨"white", (0, 0, 184), (179, 39, 255)⟩

def red : HSVColor := ⟨"red", (0, 100, 0), (8, 255, 255)⟩

def blueish_red : HSVColor := ⟨"blueish_red", (170, 0, 0), (178, 255, 255)⟩

def orange : HSVColor := ⟨"orange", (7, 178, 0), (15, 255, 255)⟩

def yellow : HSVColor := ⟨"yellow", (23, 0, 0), (29, 255, 255)⟩

def green : HSVColor := ⟨"green", (48, 50, 0), (55, 255, 255)⟩

def sky_blue : HSVColor := ⟨"sky_blue", (95, 38, 0), (111, 190, 255)⟩

def blue : HSVColor := ⟨"blue", (112, 80, 0), (126, 255, 255)⟩

def black : HSVColor := ⟨"black", (0, 0, 0), (179, 255, 49)⟩

end Colors

/-- `TeamFilters._COLOR_MAP` from `src/inference/filters.py`. -/
def COLOR_MAP : List (String × HSVColor) :=
  [ ("black", Colors.black), ("blue", Colors.blue),
    ("green", Colors.green), ("sky_blue", Colors.sky_blue) ]

/-- A team filter: name plus resolved HSV colors. -/
structure TeamFilter where
  name : String
  colors : List HSVColor
deriving DecidableEq, Repr

/-- One entry of the `teams` list of the Team Filter config file. -/
structure FilterTeamConfig where
  name : Option String
  colors : Option (List String)
deriving DecidableEq, Repr

/-- Parsed JSON of the Team Filter config file. -/
structure FiltersConfig where
  teams : Option (List FilterTeamConfig)
deriving DecidableEq, Repr

/-- Lookup in a Python dict modelled as an association list in which later
(shadowing) bindings stand in front of earlier ones. -/
def dictGet {α : Type} : List (String × α) → String → Option α
  | [], _ => none
  | (k, v) :: rest, key => if k = key then some v else dictGet rest key

/-- The `for color_name in team_config['colors']` loop: fails at the first
color name missing from `_COLOR_MAP`. -/
def resolveColors : List String → Except String (List HSVColor)
  | [] => .ok []
  | c :: rest =>
    match dictGet COLOR_MAP c with
    | none => .error ("Unknown color " ++ c)
    | some hsv =>
      match resolveColors rest with
      | .error e => .error e
      | .ok hsvs => .ok (hsv :: hsvs)

/-- The per-team loop of `TeamFilters.from_config_file`. -/
def buildFilters : List FilterTeamConfig → Except String (List TeamFilter)
  | [] => .ok []
  | tc :: rest =>
    match tc.name, tc.colors with
    | some n, some cs =>
      match resolveColors cs with
      | .error e => .error e
      | .ok colors =>
        match buildFilters rest with
        | .error e => .error e
        | .ok filters => .ok (⟨n, colors⟩ :: filters)
    | _, _ => .error "Team config must have name and colors keys"

/-- `TeamFilters.from_config_file` on the parsed JSON (file reading and JSON
decoding abstracted away). -/
def TeamFilters.from_config_file (config : FiltersConfig) :
    Except String (List TeamFilter) :=
  match config.teams with
  | none => .error "Configuration file must contain 'teams' key"
  | some teamCfgs => buildFilters teamCfgs

/-- One entry of the `teams` list of the team config file read by
`load_teams_from_config`. -/
structure TeamConfig where
  name : Option String
  abbreviation : Option String
  color : Option RGB
  board_color : Option RGB
  text_color : Option RGB
deriving DecidableEq, Repr

/-- The `match` section of the team config file. -/
structure MatchConfig where
  home_team : Option String
  away_team : Option String
  initial_possession : Option String
deriving DecidableEq, Repr

/-- Parsed JSON of the team config file. -/
structure TeamsConfig where
  teams : Option (List TeamConfig)
  matchSection : Option MatchConfig
deriving DecidableEq, Repr

/-- Python truthiness of an optional string (`None` and `""` are falsy). -/
def pyTruthy : Option String → Bool
  | none => false
  | some s => !s.isEmpty

/-- The fields of the `Match` object that `load_teams_from_config`
constructs and populates (`Match(home, away, fps=int(fps))` followed by the
`team_possession` assignment); the rest of `Match` is irrelevant here. -/
structure MatchState where
  home : Team
  away : Team
  fps : ℤ
  team_possession : Team
deriving DecidableEq, Repr

/-- The `for team_config in config['teams']` loop of
`load_teams_from_config`: skips referee entries, requires `name` and
`abbreviation`, constructs each `Team` (which may itself raise), and
accumulates the team list and the name → team dict (later duplicates
shadow earlier ones, as in a Python dict). -/
def processTeams : List TeamConfig →
    Except String (List Team × List (String × Team))
  | [] => .ok ([], [])
  | tc :: rest =>
    if pyLower (tc.name.getD "") = "referee" then processTeams rest
    else
      match tc.name, tc.abbreviation with
      | some n, some ab =>
        match Team.init n none (tc.color.getD (0, 0, 0)) ab
            tc.board_color (tc.text_color.getD (0, 0, 0)) with
        | .error e => .error e
        | .ok team =>
          match processTeams rest with
          | .error e => .error e
          | .ok (ts, tmap) => .ok (team :: ts, tmap ++ [(n, team)])
      | _, _ => .error "Team config must have name and abbreviation keys"

/-- The `if home_team_name and home_team_name in team_map ... elif teams:`
resolution of the home team (and, with `teams[1]?` in place of
`teams.head?`, of the away team). -/
def resolveTeam (nameOpt : Option String) (team_map : List (String × Team))
    (fallback : Option Team) : Option Team :=
  if pyTruthy nameOpt ∧ (nameOpt.bind (dictGet team_map)).isSome
  then nameOpt.bind (dictGet team_map)
  else fallback

/-- `src/run_utils.py`: `load_teams_from_config` on the parsed JSON. -/
def load_teams_from_config (config : TeamsConfig) (fps : ℚ) :
    Except String (List Team × MatchState) :=
  match config.teams with
  | none => .error "Configuration file must contain 'teams' key"
  | some teamCfgs =>
    match processTeams teamCfgs with
    | .error e => .error e
    | .ok (teams, team_map) =>
      let home_team_name := config.matchSection.bind (·.home_team)
      let away_team_name := config.matchSection.bind (·.away_team)
      let initial_possession_name := config.matchSection.bind (·.initial_possession)
      match resolveTeam home_team_name team_map teams.head?,
          resolveTeam away_team_name team_map teams[1]? with
      | some h, some a =>
        .ok (teams, ⟨h, a, pyInt fps,
          (resolveTeam initial_possession_name team_map (some a)).getD a⟩)
      | _, _ =>
        .error "Unable to determine home and away teams from configuration"

/-- Modelled from the spec: the possession-attribution step of
`Match.update` (file `soccer/match.py` is not among the sources; only its
callers are). Spec 4.5: "If the ball has no resolvable center this frame:
possession state is unchanged (no team gains a frame of possession), and
the ball keeps whatever color it last had." The attribution performed when
a center exists is abstracted as `assign`. -/
def possessionStep {σ : Type} (ball : Ball) (state : σ) (assign : σ → σ) : σ :=
  match Ball.center ball with
  | none => state
  | some _ => assign state

/-! Concrete fixtures used to witness the theorems below on closed inputs. -/

/-- A concrete box, as in the default ball of `get_main_ball`. -/
def boxW : Box := ⟨0, 0, 10, 10⟩

/-- The ball built from `boxW` alone. -/
def ballW : Ball := ⟨none, some boxW, none⟩

/-- A concrete tracked ball detection with corners `(1,1)` and `(3,3)`. -/
def detW : Detection := ⟨((1, 1), (3, 3)), ((1, 1), (3, 3)), none⟩

/-- The ball built from the detection `detW`. -/
def ballDW : Ball := ⟨some detW, none, none⟩

/-- A concrete player whose detection box has corners `(0,0)` and `(4,4)`. -/
def playerW : Player := ⟨⟨((0, 0), (4, 4)), ((0, 0), (4, 4)), none⟩⟩

/-- A concrete team with one frame of possession. -/
def teamW : Team := ⟨"Home", none, (0, 0, 0), "HOM", (0, 0, 0), (0, 0, 0), 1⟩

/-- A planar rational point as an element of the Euclidean plane, used to
state distances through the metric of `EuclideanSpace`. -/
noncomputable def planePt (p : ℚ × ℚ) : EuclideanSpace ℝ (Fin 2) :=
  ![(p.1 : ℝ), (p.2 : ℝ)]

/-- Two concrete player detections for the classifier witness. -/
def detW1 : Detection := ⟨((0, 0), (2, 2)), ((0, 0), (2, 2)), none⟩

/-- Second concrete detection for the classifier witness. -/
def detW2 : Detection := ⟨((5, 5), (9, 9)), ((5, 5), (9, 9)), none⟩

/-- A team config whose single entry lacks an abbreviation. -/
def cfgBadW : TeamsConfig :=
  ⟨some [⟨some "Home", none, none, none, none⟩], none⟩

/-- A filters config whose single entry names an uncatalogued color. -/
def fcfgBadW : FiltersConfig := ⟨some [⟨some "Home", some ["purple"]⟩]⟩

/-- A well-formed team config with two teams and no `match` section. -/
def cfgGoodW : TeamsConfig :=
  ⟨some [⟨some "Home", some "HOM", none, none, none⟩,
         ⟨some "Away", some "AWY", none, none, none⟩], none⟩

/-- The first team `cfgGoodW` produces. -/
def team1W : Team := ⟨"Home", none, (0, 0, 0), "HOM", (0, 0, 0), (0, 0, 0), 0⟩

/-- The second team `cfgGoodW` produces. -/
def team2W : Team := ⟨"Away", none, (0, 0, 0), "AWY", (0, 0, 0), (0, 0, 0), 0⟩

/-- The team list `cfgGoodW` loads to. -/
def tsW : List Team := [team1W, team2W]

/-- The match state `cfgGoodW` loads to at 30 fps. -/
def mW : MatchState := ⟨team1W, team2W, pyInt 30, team2W⟩

end Soccer

namespace Soccer

/-- C1 counterexample: the box `(0, 0, -1, -1)` has positive area (`1`), yet
`iou` of the box with itself is `0`, not `1` — the overlap test rejects the
degenerate rectangle before the union is formed. -/
theorem iou_self_counterexample :
    (0 : ℚ) < Box.area ⟨0, 0, -1, -1⟩ ∧
    Box.iou ⟨0, 0, -1, -1⟩ ⟨0, 0, -1, -1⟩ ≠ 1 := by
  constructor
  · norm_num [Box.area]
  · norm_num [Box.iou, Box.area]

/-- C1 (amended): `iou(a, a) = 1` for every box with positive width and
positive height; `iou` returns `0` whenever the intersection width or
height is `≤ 0`; and `iou` is symmetric for all inputs. -/
theorem iou_spec :
    (∀ a : Box, 0 < a.width → 0 < a.height → Box.iou a a = 1) ∧
    (∀ a b : Box,
      min (a.x + a.width) (b.x + b.width) ≤ max a.x b.x ∨
      min (a.y + a.height) (b.y + b.height) ≤ max a.y b.y →
      Box.iou a b = 0) ∧
    (∀ a b : Box, Box.iou a b = Box.iou b a) := by
  refine ⟨?_, ?_, ?_⟩
  · intro a hw hh
    have hwh : 0 < a.width * a.height := mul_pos hw hh
    simp only [Box.iou, Box.area, max_self, min_self]
    rw [if_neg (by push_neg; constructor <;> linarith)]
    have h1 : (a.x + a.width - a.x) * (a.y + a.height - a.y)
        = a.width * a.height := by ring
    rw [h1]
    have h2 : a.width * a.height + a.width * a.height - a.width * a.height
        = a.width * a.height := by ring
    rw [h2, if_pos hwh]
    exact div_self (ne_of_gt hwh)
  · intro a b h
    simp only [Box.iou]
    rw [if_pos h]
  · intro a b
    simp only [Box.iou]
    rw [max_comm a.x b.x, max_comm a.y b.y,
        min_comm (a.x + a.width) (b.x + b.width),
        min_comm (a.y + a.height) (b.y + b.height),
        add_comm a.area b.area]

/-- Witness for `iou_spec` at concrete boxes. -/
theorem iou_spec_witness :
    Box.iou ⟨0, 0, 10, 10⟩ ⟨0, 0, 10, 10⟩ = 1 ∧
    Box.iou ⟨0, 0, 10, 10⟩ ⟨20, 20, 10, 10⟩ = 0 ∧
    Box.iou ⟨0, 0, 10, 10⟩ ⟨5, 5, 10, 10⟩ = Box.iou ⟨5, 5, 10, 10⟩ ⟨0, 0, 10, 10⟩ :=
  ⟨iou_spec.1 ⟨0, 0, 10, 10⟩ (by norm_num) (by norm_num),
   iou_spec.2.1 ⟨0, 0, 10, 10⟩ ⟨20, 20, 10, 10⟩
     (Or.inl (by norm_num [min_def, max_def])),
   iou_spec.2.2 ⟨0, 0, 10, 10⟩ ⟨5, 5, 10, 10⟩⟩

/-- C2 counterexample: for the box `(0.6, 0, 0, 0)` the code truncates the
corner coordinate `0.6` to `0`, while rounding to the nearest integer would
give `1`. -/
theorem points_counterexample :
    Box.points ⟨3/5, 0, 0, 0⟩ ≠
      [ (round ((3 : ℚ)/5), round ((0 : ℚ))),
        (round ((3 : ℚ)/5 + 0), round ((0 : ℚ) + 0)) ] := by
  have hf : ⌊(3 : ℚ)/5⌋ = 0 := by
    rw [Int.floor_eq_iff]
    norm_num
  have hr : round ((3 : ℚ)/5) = 1 := by
    rw [round_eq, show (3 : ℚ)/5 + 1/2 = 11/10 by norm_num,
      Int.floor_eq_iff]
    norm_num
  norm_num [Box.points, pyInt, hf, hr, Prod.ext_iff]

/-- C2 (amended): each corner coordinate of `points` is the Python `int()`
truncation toward zero — on nonnegative corner coordinates this is the
floor, not the nearest integer. -/
theorem points_trunc (b : Box) (hx : 0 ≤ b.x) (hy : 0 ≤ b.y)
    (hxw : 0 ≤ b.x + b.width) (hyh : 0 ≤ b.y + b.height) :
    Box.points b =
      [(⌊b.x⌋, ⌊b.y⌋), (⌊b.x + b.width⌋, ⌊b.y + b.height⌋)] := by
  simp [Box.points, pyInt, hx, hy, hxw, hyh]

/-- Witness for `points_trunc` at a concrete box. -/
theorem points_trunc_witness :
    Box.points ⟨3/5, 1/2, 1, 1⟩ =
      [(⌊(3 : ℚ)/5⌋, ⌊(1 : ℚ)/2⌋), (⌊(3 : ℚ)/5 + 1⌋, ⌊(1 : ℚ)/2 + 1⌋)] :=
  points_trunc ⟨3/5, 1/2, 1, 1⟩ (by norm_num) (by norm_num) (by norm_num)
    (by norm_num)

/-- C3 counterexample: the degenerate box `(0, 0, -1, 2)` has area `-2`,
which is negative rather than the `0` the claim promises. -/
theorem area_counterexample :
    Box.area ⟨0, 0, -1, 2⟩ < 0 ∧ Box.area ⟨0, 0, -1, 2⟩ ≠ 0 := by
  constructor <;> norm_num [Box.area]

/-- C3 (amended): `area` is always `width * height` (never an error), and it
is `0` when the width or the height is `0`; a box with exactly one negative
dimension has negative area. -/
theorem area_spec :
    (∀ b : Box, Box.area b = b.width * b.height) ∧
    (∀ b : Box, b.width = 0 ∨ b.height = 0 → Box.area b = 0) := by
  refine ⟨fun b => rfl, ?_⟩
  intro b h
  rcases h with h | h <;> simp [Box.area, h]

/-- Witness for `area_spec` at concrete boxes. -/
theorem area_spec_witness :
    Box.area ⟨1, 2, 3, 4⟩ = 3 * 4 ∧ Box.area ⟨1, 2, 0, 5⟩ = 0 :=
  ⟨area_spec.1 ⟨1, 2, 3, 4⟩, area_spec.2 ⟨1, 2, 0, 5⟩ (Or.inl rfl)⟩

/-- C4: constructing a `Ball` with neither a detection nor a box raises
`ValueError`, and every successfully constructed `Ball` carries exactly one
of detection and box (a detection passed together with a box wins and the
box field is set to `None`). -/
theorem ball_init_spec :
    Ball.init none none = .error "Either detection or box must be provided" ∧
    (∀ (d : Option Detection) (b : Option Box) (ball : Ball),
      Ball.init d b = .ok ball →
      (ball.detection.isSome ∧ ball.box = none) ∨
      (ball.detection = none ∧ ball.box.isSome)) := by
  refine ⟨rfl, ?_⟩
  intro d b ball h
  cases d with
  | some dv =>
    simp only [Ball.init, Except.ok.injEq] at h
    subst h
    left
    exact ⟨rfl, rfl⟩
  | none =>
    cases b with
    | some bv =>
      simp only [Ball.init, Except.ok.injEq] at h
      subst h
      right
      exact ⟨rfl, rfl⟩
    | none => exact (Except.noConfusion h)

/-- Witness for `ball_init_spec` on the concrete box-only ball. -/
theorem ball_init_spec_witness :
    (ballW.detection.isSome ∧ ballW.box = none) ∨
    (ballW.detection = none ∧ ballW.box.isSome) :=
  ball_init_spec.2 none (some boxW) ballW rfl

/-- C9: a `Ball` built from a raw box has no resolvable center (`center`
and `center_abs` are `None`), its `position` is the box's top-left corner,
and the possession step therefore leaves the possession state unchanged. -/
theorem ball_from_box_spec :
    ∀ (box : Box) (ball : Ball), Ball.init none (some box) = .ok ball →
      Ball.center ball = none ∧ Ball.center_abs ball = none ∧
      Ball.position ball = (box.x, box.y) ∧
      ∀ (σ : Type) (state : σ) (assign : σ → σ),
        possessionStep ball state assign = state := by
  intro box ball h
  simp only [Ball.init, Except.ok.injEq] at h
  subst h
  refine ⟨rfl, rfl, rfl, ?_⟩
  intro σ state assign
  rfl

/-- Witness for `ball_from_box_spec` on the concrete box-only ball. -/
theorem ball_from_box_spec_witness :
    Ball.center ballW = none ∧ Ball.center_abs ballW = none ∧
    Ball.position ballW = (0, 0) ∧
    possessionStep ballW (0 : ℕ) Nat.succ = 0 :=
  have h := ball_from_box_spec boxW ballW rfl
  ⟨h.1, h.2.1, h.2.2.1, h.2.2.2 ℕ 0 Nat.succ⟩

/-- C7: `Team` construction fails with the validation error whenever the
abbreviation does not have length 3 or is not uppercase in Python's
`str.isupper()` sense, and succeeds for every abbreviation made of exactly
3 uppercase letters. -/
theorem team_abbreviation_validation :
    (∀ (name : String) (id : Option ℕ) (color : RGB) (ab : String)
        (bc : Option RGB) (tc : RGB),
      ab.length ≠ 3 ∨ pyIsUpper ab = false →
      Team.init name id color ab bc tc =
        .error "abbreviation must be length 3 and uppercase") ∧
    (∀ (name : String) (id : Option ℕ) (color : RGB) (ab : String)
        (bc : Option RGB) (tc : RGB),
      ab.length = 3 → (∀ c ∈ ab.data, c.isUpper) →
      ∃ t, Team.init name id color ab bc tc = .ok t) := by
  constructor
  · intro name id color ab bc tc h
    unfold Team.init
    rw [if_pos]
    rcases h with h | h
    · exact Or.inl h
    · exact Or.inr (by simp [h])
  · intro name id color ab bc tc hlen hup
    have hne : ab.data ≠ [] := by
      intro h0
      rw [show ab.length = ab.data.length from rfl, h0] at hlen
      simp at hlen
    have hpy : pyIsUpper ab = true := by
      unfold pyIsUpper
      rw [Bool.and_eq_true, List.any_eq_true, List.all_eq_true]
      constructor
      · obtain ⟨c, hc⟩ := List.exists_mem_of_ne_nil ab.data hne
        exact ⟨c, hc, by simp [Char.isAlpha, hup c hc]⟩
      · intro c hc
        simp [hup c hc]
    refine ⟨⟨name, id, color, ab, bc.getD color, tc, 0⟩, ?_⟩
    unfold Team.init
    rw [if_neg]
    intro hcon
    rcases hcon with h | h
    · exact h hlen
    · exact h hpy

/-- Witness for `team_abbreviation_validation` on concrete abbreviations. -/
theorem team_abbreviation_validation_witness :
    Team.init "Home" none (0, 0, 0) "ab" none (0, 0, 0) =
      .error "abbreviation must be length 3 and uppercase" ∧
    ∃ t, Team.init "Home" none (0, 0, 0) "HOM" none (0, 0, 0) = .ok t :=
  ⟨team_abbreviation_validation.1 "Home" none (0, 0, 0) "ab" none (0, 0, 0)
     (Or.inr (by decide)),
   team_abbreviation_validation.2 "Home" none (0, 0, 0) "HOM" none (0, 0, 0)
     (by decide) (by decide)⟩

/-- `roundHalfEven` is within `1/2` of its argument. -/
theorem roundHalfEven_abs_le (q : ℚ) :
    |(roundHalfEven q : ℚ) - q| ≤ 1/2 := by
  have hfe : (⌊q⌋ : ℚ) + Int.fract q = q := Int.floor_add_fract q
  have h0 : 0 ≤ Int.fract q := Int.fract_nonneg q
  have h1 : Int.fract q < 1 := Int.fract_lt_one q
  unfold roundHalfEven
  split_ifs with ha hb hc
  all_goals rw [abs_le]
  all_goals push_cast
  all_goals constructor
  all_goals linarith

/-- C10: `get_percentage_possession` is total — `0` at duration `0`, and
for positive durations it returns a multiple of `1/100` within `1/200` of
`possession / duration`. -/
theorem get_percentage_possession_spec :
    (∀ t : Team, Team.get_percentage_possession t 0 = 0) ∧
    (∀ (t : Team) (duration : ℤ), 0 < duration →
      |Team.get_percentage_possession t duration -
        (t.possession : ℚ) / (duration : ℚ)| ≤ 1/200 ∧
      ∃ k : ℤ, Team.get_percentage_possession t duration = (k : ℚ) / 100) := by
  constructor
  · intro t
    simp [Team.get_percentage_possession]
  · intro t duration hdur
    have hdne : duration ≠ 0 := ne_of_gt hdur
    unfold Team.get_percentage_possession
    rw [if_neg hdne]
    set q : ℚ := (t.possession : ℚ) / (duration : ℚ) * 100 with hq
    constructor
    · have habs := roundHalfEven_abs_le q
      have hcast : (t.possession : ℚ) / (duration : ℚ) = q / 100 := by
        rw [hq]
        field_simp
        ring
      rw [hcast]
      have hdiff : (roundHalfEven q : ℚ) / 100 - q / 100
          = ((roundHalfEven q : ℚ) - q) / 100 := by ring
      rw [hdiff, abs_div, abs_of_pos (show (0 : ℚ) < 100 by norm_num)]
      linarith
    · exact ⟨roundHalfEven q, rfl⟩

/-- Witness for `get_percentage_possession_spec` on a concrete team. -/
theorem get_percentage_possession_witness :
    Team.get_percentage_possession teamW 0 = 0 ∧
    (|Team.get_percentage_possession teamW 3 -
        (teamW.possession : ℚ) / ((3 : ℤ) : ℚ)| ≤ 1/200 ∧
      ∃ k : ℤ, Team.get_percentage_possession teamW 3 = (k : ℚ) / 100) :=
  ⟨get_percentage_possession_spec.1 teamW,
   get_percentage_possession_spec.2 teamW 3 (by norm_num)⟩

/-- The `np.linalg.norm` formula agrees with the Euclidean-plane metric. -/
theorem planeDist_eq_dist (a b : ℚ × ℚ) :
    planeDist a b = dist (planePt a) (planePt b) := by
  rw [EuclideanSpace.dist_eq]
  unfold planeDist planePt
  rw [Fin.sum_univ_two]
  simp [Real.dist_eq, sq_abs]

/-- C6: `distance_to_ball` is `None` when the ball has no resolvable
center; when the player's detection points are
`[(x_min, y_min), (x_max, y_max)]` and the ball has center `c`, it returns
the smaller of the Euclidean distances from `c` to the left foot
`(x_min, y_max)` and to the right foot `(x_max, y_max)`. -/
theorem distance_to_ball_spec :
    (∀ (p : Player) (ball : Ball), Ball.center ball = none →
      Player.distance_to_ball p ball = none) ∧
    (∀ (p : Player) (ball : Ball) (xmin ymin xmax ymax : ℚ) (c : ℤ × ℤ),
      p.detection.points = ((xmin, ymin), (xmax, ymax)) →
      Ball.center ball = some c →
      Player.distance_to_ball p ball =
        some (min
          (dist (planePt ((c.1 : ℚ), (c.2 : ℚ))) (planePt (xmin, ymax)))
          (dist (planePt ((c.1 : ℚ), (c.2 : ℚ))) (planePt (xmax, ymax))))) := by
  constructor
  · intro p ball h
    unfold Player.distance_to_ball
    rw [h]
    rfl
  · intro p ball xmin ymin xmax ymax c hpts hc
    unfold Player.distance_to_ball Player.left_foot Player.right_foot
    rw [hc]
    simp only [Option.map_some']
    rw [hpts]
    simp [planeDist_eq_dist]

/-- Witness for `distance_to_ball_spec` on a concrete player and ball. -/
theorem distance_to_ball_witness :
    Player.distance_to_ball playerW ballDW =
      some (min
        (dist (planePt (((2 : ℤ) : ℚ), ((2 : ℤ) : ℚ))) (planePt (0, 4)))
        (dist (planePt (((2 : ℤ) : ℚ), ((2 : ℤ) : ℚ))) (planePt (4, 4)))) :=
  distance_to_ball_spec.2 playerW ballDW 0 0 4 4 (2, 2) rfl
    (by
      have h2 : roundHalfEven 2 = 2 := by norm_num [roundHalfEven, Int.fract]
      have hc : Ball.get_center detW.points = (2, 2) := by
        norm_num [Ball.get_center, detW]
      simp [Ball.center, ballDW, hc, h2])

/-- A list containing a non-`Detection` element fails the `isinstance`
extraction. -/
theorem extractDetections_eq_none {input : List PyObj}
    (h : PyObj.nonDet ∈ input) : extractDetections input = none := by
  induction input with
  | nil => cases h
  | cons hd tl ih =>
    cases hd with
    | nonDet => rfl
    | det d =>
      have htl : PyObj.nonDet ∈ tl := by
        rcases List.mem_cons.mp h with h1 | h1
        · exact absurd h1 (by simp)
        · exact h1
      simp [extractDetections, ih htl]

/-- With exactly one label per detection, the zip-assignment is the
pointwise update. -/
theorem attachLabels_eq_zipWith (ds : List Detection) :
    ∀ ls : List String, ls.length = ds.length →
      attachLabels ds ls =
        List.zipWith (fun d l => { d with classification := some l }) ds ls := by
  induction ds with
  | nil =>
    intro ls h
    cases ls with
    | nil => rfl
    | cons l ls => simp at h
  | cons d ds ih =>
    intro ls h
    cases ls with
    | nil => simp at h
    | cons l ls =>
      simp only [attachLabels, List.zipWith_cons_cons]
      rw [ih ls (by simpa using h)]

/-- C8: `predict_from_detections` raises `TypeError` on any input list
containing a non-`Detection`; otherwise, when the wrapped `predict` call
returns one label per crop, the i-th detection receives the i-th label of
the prediction on the crops cut in input order. -/
theorem predict_from_detections_spec :
    (∀ (predict : List Box → List String) (input : List PyObj),
      PyObj.nonDet ∈ input →
      BaseClassifier.predict_from_detections predict input =
        .error "detections must be a list of norfair.Detection") ∧
    (∀ (predict : List Box → List String) (input : List PyObj)
        (ds : List Detection),
      extractDetections input = some ds →
      (predict (ds.map cropBox)).length = ds.length →
      BaseClassifier.predict_from_detections predict input =
        .ok (List.zipWith (fun d l => { d with classification := some l }) ds
              (predict (ds.map cropBox)))) := by
  constructor
  · intro predict input h
    unfold BaseClassifier.predict_from_detections
    rw [extractDetections_eq_none h]
  · intro predict input ds hex hlen
    unfold BaseClassifier.predict_from_detections
    rw [hex]
    dsimp only
    rw [attachLabels_eq_zipWith ds _ hlen]

/-- Witness for `predict_from_detections_spec` on two concrete detections
and a two-label classifier. -/
theorem predict_from_detections_witness :
    BaseClassifier.predict_from_detections (fun _ => ["A", "B"])
        [PyObj.det detW1, PyObj.det detW2] =
      .ok (List.zipWith (fun d l => { d with classification := some l })
        [detW1, detW2]
        ((fun _ => ["A", "B"]) (List.map cropBox [detW1, detW2]))) :=
  predict_from_detections_spec.2 (fun _ => ["A", "B"])
    [PyObj.det detW1, PyObj.det detW2] [detW1, detW2] rfl rfl

/-- A non-referee entry missing `name` or `abbreviation` makes the team
loop fail. -/
theorem processTeams_error_of_bad (l : List TeamConfig) (tc : TeamConfig)
    (hmem : tc ∈ l) (href : pyLower (tc.name.getD "") ≠ "referee")
    (hbad : tc.name = none ∨ tc.abbreviation = none) :
    ∃ e, processTeams l = .error e := by
  induction l with
  | nil => cases hmem
  | cons hd tl ih =>
    rcases List.mem_cons.mp hmem with h1 | h1
    · subst h1
      unfold processTeams
      rw [if_neg href]
      rcases hbad with h | h
      · rw [h]
        exact ⟨_, rfl⟩
      · rw [h]
        cases hn : tc.name with
        | none => exact ⟨_, rfl⟩
        | some n => exact ⟨_, rfl⟩
    · obtain ⟨e, he⟩ := ih h1
      unfold processTeams
      by_cases hr : pyLower (hd.name.getD "") = "referee"
      · rw [if_pos hr, he]
        exact ⟨e, rfl⟩
      · rw [if_neg hr]
        cases hn : hd.name with
        | none => exact ⟨_, rfl⟩
        | some n =>
          cases ha : hd.abbreviation with
          | none => exact ⟨_, rfl⟩
          | some ab =>
            cases hinit : Team.init n none (hd.color.getD (0, 0, 0)) ab
                hd.board_color (hd.text_color.getD (0, 0, 0)) with
            | error e2 => exact ⟨e2, by dsimp only; rw [hinit]⟩
            | ok team => exact ⟨e, by dsimp only; rw [hinit]; dsimp only; rw [he]⟩

/-- A value found by `dictGet` is a value of the association list. -/
theorem dictGet_mem {α : Type} :
    ∀ (m : List (String × α)) (k : String) (v : α),
      dictGet m k = some v → ∃ k2, (k2, v) ∈ m := by
  intro m
  induction m with
  | nil => intro k v h; cases h
  | cons kv rest ih =>
    intro k v h
    obtain ⟨k1, v1⟩ := kv
    unfold dictGet at h
    by_cases hk : k1 = k
    · rw [if_pos hk] at h
      injection h with h
      subst h
      exact ⟨k1, List.mem_cons_self _ _⟩
    · rw [if_neg hk] at h
      obtain ⟨k2, hmem⟩ := ih k v h
      exact ⟨k2, List.mem_cons_of_mem _ hmem⟩

/-- Every team recorded in the name map built by `processTeams` is one of
the produced teams. -/
theorem processTeams_map_mem :
    ∀ (l : List TeamConfig) (ts : List Team) (m : List (String × Team)),
      processTeams l = .ok (ts, m) → ∀ nt ∈ m, nt.2 ∈ ts := by
  intro l
  induction l with
  | nil =>
    intro ts m h nt hmem
    simp only [processTeams, Except.ok.injEq, Prod.mk.injEq] at h
    obtain ⟨hts, hm⟩ := h
    subst hts
    subst hm
    cases hmem
  | cons hd tl ih =>
    intro ts m h nt hmem
    unfold processTeams at h
    split at h
    · exact ih ts m h nt hmem
    · split at h
      · split at h
        · exact Except.noConfusion h
        · split at h
          · exact Except.noConfusion h
          · next team heqInit ts2 tmap2 heqRec =>
            simp only [Except.ok.injEq, Prod.mk.injEq] at h
            obtain ⟨hts, hm⟩ := h
            subst hts
            subst hm
            rcases List.mem_append.mp hmem with h1 | h1
            · exact List.mem_cons_of_mem _ (ih ts2 tmap2 heqRec nt h1)
            · rw [List.mem_singleton] at h1
              subst h1
              exact List.mem_cons_self _ _
      · exact Except.noConfusion h

/-- An unknown color name anywhere in the list makes color resolution
fail. -/
theorem resolveColors_error_of_unknown :
    ∀ (cs : List String) (c : String), c ∈ cs →
      dictGet COLOR_MAP c = none → ∃ e, resolveColors cs = .error e := by
  intro cs
  induction cs with
  | nil => intro c hc; cases hc
  | cons c0 rest ih =>
    intro c hc hnone
    unfold resolveColors
    cases hlk : dictGet COLOR_MAP c0 with
    | none => exact ⟨_, rfl⟩
    | some hsv =>
      have hcr : c ∈ rest := by
        rcases List.mem_cons.mp hc with h1 | h1
        · subst h1
          rw [hlk] at hnone
          cases hnone
        · exact h1
      obtain ⟨e, he⟩ := ih c hcr hnone
      exact ⟨e, by dsimp only; rw [he]⟩

/-- An entry with an unknown color name anywhere in the filters config
makes the filter loop fail. -/
theorem buildFilters_error_of_unknown :
    ∀ (l : List FilterTeamConfig) (tc : FilterTeamConfig) (c : String),
      tc ∈ l → c ∈ tc.colors.getD [] → dictGet COLOR_MAP c = none →
      ∃ e, buildFilters l = .error e := by
  intro l
  induction l with
  | nil => intro tc c h; cases h
  | cons hd tl ih =>
    intro tc c hmem hc hnone
    unfold buildFilters
    rcases List.mem_cons.mp hmem with h1 | h1
    · subst h1
      cases hn : tc.name with
      | none => exact ⟨_, rfl⟩
      | some n =>
        cases hcol : tc.colors with
        | none => exact ⟨_, rfl⟩
        | some cs =>
          have hcs : c ∈ cs := by
            rw [hcol] at hc
            exact hc
          obtain ⟨e, he⟩ := resolveColors_error_of_unknown cs c hcs hnone
          exact ⟨e, by dsimp only; rw [he]⟩
    · obtain ⟨e, he⟩ := ih tc c h1 hc hnone
      cases hn : hd.name with
      | none => exact ⟨_, rfl⟩
      | some n =>
        cases hcol : hd.colors with
        | none => exact ⟨_, rfl⟩
        | some cs =>
          cases hrc : resolveColors cs with
          | error e2 => exact ⟨e2, by dsimp only; rw [hrc]⟩
          | ok colors => exact ⟨e, by dsimp only; rw [hrc]; dsimp only; rw [he]⟩

/-- The head of a list, when it exists, is a member. -/
theorem head?_mem_self {α : Type} (l : List α) (x : α)
    (h : l.head? = some x) : x ∈ l := by
  cases l with
  | nil => cases h
  | cons a tl =>
    rw [List.head?_cons, Option.some.injEq] at h
    subst h
    exact List.mem_cons_self _ _

/-- The second element of a list, when it exists, is a member. -/
theorem getElem1_mem_self {α : Type} (l : List α) (x : α)
    (h : l[1]? = some x) : x ∈ l := by
  match l with
  | [] => cases h
  | [a] => cases h
  | a :: b :: tl =>
    have : b = x := by
      simpa using h
    subst this
    exact List.mem_cons_of_mem _ (List.mem_cons_self _ _)

/-- A team produced by the home/away resolution step is either found in the
name map or taken from the fallback. -/
theorem resolveTeam_mem (nameOpt : Option String)
    (tmap : List (String × Team)) (fb : Option Team) (ts : List Team)
    (t : Team) (hmap : ∀ nt ∈ tmap, nt.2 ∈ ts)
    (hfb : ∀ x, fb = some x → x ∈ ts)
    (h : resolveTeam nameOpt tmap fb = some t) : t ∈ ts := by
  unfold resolveTeam at h
  split at h
  · cases nameOpt with
    | none => cases h
    | some nm =>
      simp only [Option.some_bind] at h
      obtain ⟨k2, hmem⟩ := dictGet_mem tmap nm t h
      exact hmap (k2, t) hmem
  · exact hfb t h

/-- Resolution with an absent name falls back to list order. -/
theorem resolveTeam_none (tmap : List (String × Team)) (fb : Option Team) :
    resolveTeam none tmap fb = fb := by
  unfold resolveTeam
  rw [if_neg]
  intro hcon
  exact absurd hcon.1 (by simp [pyTruthy])

/-- C5: loading the team configuration fails when the `teams` key is absent
(in either loader), when a non-referee team entry lacks `name` or
`abbreviation`, when a color name of the color-name-based Team Filter
config is missing from the static catalogue, or when home/away cannot be
resolved (every successful load yields home and away among the listed
teams); when home/away names are absent, home and away default to list
order. -/
theorem load_teams_config_spec :
    (∀ (cfg : TeamsConfig) (fps : ℚ), cfg.teams = none →
      load_teams_from_config cfg fps =
        .error "Configuration file must contain 'teams' key") ∧
    (∀ fcfg : FiltersConfig, fcfg.teams = none →
      TeamFilters.from_config_file fcfg =
        .error "Configuration file must contain 'teams' key") ∧
    (∀ (cfg : TeamsConfig) (fps : ℚ) (l : List TeamConfig) (tc : TeamConfig),
      cfg.teams = some l → tc ∈ l →
      pyLower (tc.name.getD "") ≠ "referee" →
      (tc.name = none ∨ tc.abbreviation = none) →
      ∃ e, load_teams_from_config cfg fps = .error e) ∧
    (∀ (fcfg : FiltersConfig) (l : List FilterTeamConfig)
        (tc : FilterTeamConfig) (c : String),
      fcfg.teams = some l → tc ∈ l → c ∈ tc.colors.getD [] →
      dictGet COLOR_MAP c = none →
      ∃ e, TeamFilters.from_config_file fcfg = .error e) ∧
    (∀ (cfg : TeamsConfig) (fps : ℚ) (ts : List Team) (m : MatchState),
      load_teams_from_config cfg fps = .ok (ts, m) →
      m.home ∈ ts ∧ m.away ∈ ts) ∧
    (∀ (cfg : TeamsConfig) (fps : ℚ) (ts : List Team) (m : MatchState),
      load_teams_from_config cfg fps = .ok (ts, m) →
      cfg.matchSection.bind (·.home_team) = none →
      cfg.matchSection.bind (·.away_team) = none →
      ts.head? = some m.home ∧ ts[1]? = some m.away) := by
  refine ⟨?_, ?_, ?_, ?_, ?_, ?_⟩
  · intro cfg fps h
    unfold load_teams_from_config
    rw [h]
  · intro fcfg h
    unfold TeamFilters.from_config_file
    rw [h]
  · intro cfg fps l tc hteams hmem href hbad
    obtain ⟨e, he⟩ := processTeams_error_of_bad l tc hmem href hbad
    refine ⟨e, ?_⟩
    unfold load_teams_from_config
    rw [hteams]
    dsimp only
    rw [he]
  · intro fcfg l tc c hteams hmem hc hnone
    obtain ⟨e, he⟩ := buildFilters_error_of_unknown l tc c hmem hc hnone
    refine ⟨e, ?_⟩
    unfold TeamFilters.from_config_file
    rw [hteams]
    dsimp only
    exact he
  · intro cfg fps ts m h
    unfold load_teams_from_config at h
    split at h
    · exact Except.noConfusion h
    · split at h
      · exact Except.noConfusion h
      · next teams tmap heqP =>
        dsimp only at h
        split at h
        · next h2 a2 heqH heqA =>
          simp only [Except.ok.injEq, Prod.mk.injEq] at h
          obtain ⟨hts, hm⟩ := h
          subst hts
          subst hm
          constructor
          · exact resolveTeam_mem _ tmap _ _ h2
              (processTeams_map_mem _ _ tmap heqP)
              (fun x hx => head?_mem_self _ x hx) heqH
          · exact resolveTeam_mem _ tmap _ _ a2
              (processTeams_map_mem _ _ tmap heqP)
              (fun x hx => getElem1_mem_self _ x hx) heqA
        · exact Except.noConfusion h
  · intro cfg fps ts m h hhn han
    unfold load_teams_from_config at h
    split at h
    · exact Except.noConfusion h
    · split at h
      · exact Except.noConfusion h
      · next teams tmap heqP =>
        rw [hhn, han] at h
        dsimp only at h
        rw [resolveTeam_none, resolveTeam_none] at h
        split at h
        · next h2 a2 heqH heqA =>
          simp only [Except.ok.injEq, Prod.mk.injEq] at h
          obtain ⟨hts, hm⟩ := h
          subst hts
          subst hm
          exact ⟨heqH, heqA⟩
        · exact Except.noConfusion h

/-- Witness for `load_teams_config_spec` on concrete configurations. -/
theorem load_teams_config_witness :
    load_teams_from_config ⟨none, none⟩ 30 =
      .error "Configuration file must contain 'teams' key" ∧
    TeamFilters.from_config_file ⟨none⟩ =
      .error "Configuration file must contain 'teams' key" ∧
    (∃ e, load_teams_from_config cfgBadW 30 = .error e) ∧
    (∃ e, TeamFilters.from_config_file fcfgBadW = .error e) ∧
    (mW.home ∈ tsW ∧ mW.away ∈ tsW) ∧
    (tsW.head? = some mW.home ∧ tsW[1]? = some mW.away) :=
  ⟨load_teams_config_spec.1 ⟨none, none⟩ 30 rfl,
   load_teams_config_spec.2.1 ⟨none⟩ rfl,
   load_teams_config_spec.2.2.1 cfgBadW 30 _
     ⟨some "Home", none, none, none, none⟩ rfl (List.mem_cons_self _ _)
     (by decide) (Or.inr rfl),
   load_teams_config_spec.2.2.2.1 fcfgBadW _
     ⟨some "Home", some ["purple"]⟩ "purple" rfl (List.mem_cons_self _ _)
     (by decide) rfl,
   load_teams_config_spec.2.2.2.2.1 cfgGoodW 30 tsW mW rfl,
   load_teams_config_spec.2.2.2.2.2 cfgGoodW 30 tsW mW rfl rfl rfl⟩

end Soccer
